import Mathlib

/-!
Verification of the cosmological-tag layer of swiftsimio
(src/swiftsimio/objects.py): the cosmo_factor scale-factor-exponent
algebra and the cosmo_array tagged-array type with its ufunc dispatch,
comoving/physical conversion, attribute propagation and pickling hooks.

Modelling conventions:
- Python floats are modelled as rationals; numeric buffers as lists of
  rationals.
- Every sympy expression stored in a cosmo_factor in this program is a
  pure power of the scale-factor symbol a, so expr is represented by its
  integer exponent n (sympy equality of two such powers is equality of
  exponents, and multiplication and division of powers add and subtract
  exponents).
- Fallible Python code is translated into the Except monad; the
  exceptions that can actually be raised by the translated code are
  enumerated in PyError.
- In-place mutation is handled by explicit state passing: a method that
  mutates its receiver is translated as a function returning the new
  state of the receiver; methods suffixed _m additionally return the
  post-call state of the receiver or operands, so that absence of
  mutation becomes a provable statement rather than a convention.
-/

namespace Swiftsimio

/-- Exceptions raisable by the translated code paths: the dedicated
InvalidScaleFactor of objects.py, plus the built-in exceptions that the
untranslated-from-spec-free source raises (NotImplementedError from the
unimplemented dispatch rules; AttributeError / TypeError from attribute
access on None and arity errors). -/
inductive PyError where
  | invalidScaleFactor
  | notImplementedError
  | attributeError
  | typeError
deriving DecidableEq, Repr

/-- cosmo_factor (objects.py lines 215-382): an exponent of the scale
factor together with the numeric scale factor at which the quantity was
tagged. The sympy expression a^n is represented by the exponent n. -/
structure cosmo_factor where
  expr : ℤ
  scale_factor : ℚ
deriving DecidableEq, Repr

namespace cosmo_factor

/-- a_factor property (lines 268-281): float(expr.subs(a, scale_factor)),
i.e. scale_factor raised to the stored exponent. -/
def a_factor (c : cosmo_factor) : ℚ :=
  c.scale_factor ^ c.expr

/-- redshift property (lines 283-301): 1/scale_factor - 1. -/
def redshift (c : cosmo_factor) : ℚ :=
  1 / c.scale_factor - 1

/-- cosmo_factor.__add__ (lines 303-316): raises InvalidScaleFactor when
the scale factors differ, then when the expressions differ; otherwise
returns cosmo_factor(expr=self.expr, scale_factor=self.scale_factor). -/
def add (s b : cosmo_factor) : Except PyError cosmo_factor :=
  if s.scale_factor ≠ b.scale_factor then .error .invalidScaleFactor
  else if s.expr ≠ b.expr then .error .invalidScaleFactor
  else .ok ⟨s.expr, s.scale_factor⟩

/-- cosmo_factor.__sub__ (lines 318-331): same checks and result shape
as addition. -/
def sub (s b : cosmo_factor) : Except PyError cosmo_factor :=
  if s.scale_factor ≠ b.scale_factor then .error .invalidScaleFactor
  else if s.expr ≠ b.expr then .error .invalidScaleFactor
  else .ok ⟨s.expr, s.scale_factor⟩

/-- cosmo_factor.__mul__ (lines 333-340): requires equal scale factors;
the result expression is the product of the operand expressions, i.e.
the exponents add. -/
def mul (s b : cosmo_factor) : Except PyError cosmo_factor :=
  if s.scale_factor ≠ b.scale_factor then .error .invalidScaleFactor
  else .ok ⟨s.expr + b.expr, s.scale_factor⟩

/-- cosmo_factor.__truediv__ (lines 342-349): requires equal scale
factors; the result expression is the quotient, i.e. exponents
subtract. -/
def div (s b : cosmo_factor) : Except PyError cosmo_factor :=
  if s.scale_factor ≠ b.scale_factor then .error .invalidScaleFactor
  else .ok ⟨s.expr - b.expr, s.scale_factor⟩

/-- cosmo_factor.__pow__ (lines 363-364): raises the expression to the
power p, scale factor unchanged; never fails. -/
def pow (s : cosmo_factor) (p : ℤ) : cosmo_factor :=
  ⟨s.expr * p, s.scale_factor⟩

end cosmo_factor

/-- C2: adding or subtracting two scale-factor exponents succeeds exactly
when both the scale factor and the expression agree, in which case the
result carries the same expression and scale factor (hence e + e = e and
e - e = e); any mismatch raises InvalidScaleFactor and is never coerced. -/
theorem cosmo_factor_add_sub_spec (e1 e2 : cosmo_factor) :
    (e1.scale_factor = e2.scale_factor ∧ e1.expr = e2.expr →
      cosmo_factor.add e1 e2 = .ok ⟨e1.expr, e1.scale_factor⟩ ∧
      cosmo_factor.sub e1 e2 = .ok ⟨e1.expr, e1.scale_factor⟩) ∧
    (¬(e1.scale_factor = e2.scale_factor ∧ e1.expr = e2.expr) →
      cosmo_factor.add e1 e2 = .error .invalidScaleFactor ∧
      cosmo_factor.sub e1 e2 = .error .invalidScaleFactor) ∧
    cosmo_factor.add e1 e1 = .ok e1 ∧ cosmo_factor.sub e1 e1 = .ok e1 := by
  obtain ⟨x1, s1⟩ := e1
  obtain ⟨x2, s2⟩ := e2
  unfold cosmo_factor.add cosmo_factor.sub
  by_cases h1 : s1 = s2 <;> by_cases h2 : x1 = x2 <;> simp [h1, h2]

/-- Witness for C2: concrete instances of both the success and the
failure branch of the add/subtract specification. -/
theorem cosmo_factor_add_sub_spec_witness :
    cosmo_factor.add ⟨1, 1/2⟩ ⟨1, 1/2⟩ = .ok ⟨1, 1/2⟩ ∧
    cosmo_factor.add ⟨1, 1/2⟩ ⟨1, 1/4⟩ = .error .invalidScaleFactor := by
  refine ⟨(cosmo_factor_add_sub_spec ⟨1, 1/2⟩ ⟨1, 1/2⟩).2.2.1, ?_⟩
  exact ((cosmo_factor_add_sub_spec ⟨1, 1/2⟩ ⟨1, 1/4⟩).2.1 (by norm_num)).1

/-- cosmo_array (objects.py lines 385-831): a unyt_array subclass with
three extra attributes. The numeric buffer is modelled as a list of
rationals and the unit metadata (owned by the external unyt collaborator)
as an opaque string label; dimensional analysis is out of scope. -/
structure cosmo_array where
  values : List ℚ
  units : String
  comoving : Bool
  cosmo_factor : Option cosmo_factor
  compression : Option String
deriving DecidableEq, Repr

/-- __array_finalize__ (lines 587-593): a result that numpy finalizes
from a source cosmo_array obj copies cosmo_factor, comoving and
compression from it via getattr with defaults (None, True, None). The
buffer content of the view or copy is abstracted as vals. -/
def array_finalize (src : cosmo_array) (vals : List ℚ) : cosmo_array :=
  { values := vals
    units := src.units
    comoving := src.comoving
    cosmo_factor := src.cosmo_factor
    compression := src.compression }

/-- _propagate_cosmo_array_attributes (lines 103-114): when the wrapped
call returns a cosmo_array, overwrite its cosmo_factor and comoving with
the attributes of self. Nothing else (in particular not compression) is
copied by the wrapper. -/
def propagate_cosmo_array_attributes (self ret : cosmo_array) : cosmo_array :=
  { ret with cosmo_factor := self.cosmo_factor, comoving := self.comoving }

/-- Base step of in_units: unyt_array.in_units (external collaborator)
converts the data and builds the result by calling the constructor of
type(self); cosmo_array.__new__ (lines 505-585) then applies its
defaults cosmo_factor=None, comoving=True, compression=None, since
in_units passes none of them. The call sites in this file convert an
array to its own units, so the numeric values are unchanged. -/
def in_units_base (x : cosmo_array) : cosmo_array :=
  { values := x.values
    units := x.units
    comoving := true
    cosmo_factor := none
    compression := none }

/-- in_units as exposed on cosmo_array (line 630): the wrapped unyt
in_units, so the fresh copy gets cosmo_factor and comoving restored from
self by the wrapper. -/
def in_units (x : cosmo_array) : cosmo_array :=
  propagate_cosmo_array_attributes x (in_units_base x)

/-- convert_to_comoving (lines 658-669): no-op when already comoving,
otherwise divide the stored values in place by cosmo_factor.a_factor and
set comoving to True. Accessing a_factor on a None cosmo_factor raises
AttributeError. Returns the new state of the receiver. -/
def convert_to_comoving (x : cosmo_array) : Except PyError cosmo_array :=
  if x.comoving then .ok x
  else
    match x.cosmo_factor with
    | none => .error .attributeError
    | some c =>
        .ok { x with values := x.values.map (· / c.a_factor), comoving := true }

/-- convert_to_physical (lines 671-682): symmetric to
convert_to_comoving, multiplying by a_factor and setting comoving to
False. -/
def convert_to_physical (x : cosmo_array) : Except PyError cosmo_array :=
  if x.comoving then
    match x.cosmo_factor with
    | none => .error .attributeError
    | some c =>
        .ok { x with values := x.values.map (· * c.a_factor), comoving := false }
  else .ok x

/-- to_physical (lines 684-696): copy self via in_units, then apply the
in-place conversion to the copy; the receiver is only read. -/
def to_physical (x : cosmo_array) : Except PyError cosmo_array :=
  convert_to_physical (in_units x)

/-- to_comoving (lines 698-710): copy self via in_units, then apply the
in-place conversion to the copy; the receiver is only read. -/
def to_comoving (x : cosmo_array) : Except PyError cosmo_array :=
  convert_to_comoving (in_units x)

/-- State-threaded form of to_physical: returns the Python return value
together with the post-call state of the receiver. The body of
to_physical reads self (in_units allocates a fresh object) and mutates
only the fresh copy, so the receiver state passes through unchanged. -/
def to_physical_m (x : cosmo_array) : Except PyError (cosmo_array × cosmo_array) :=
  (to_physical x).map (fun y => (y, x))

/-- State-threaded form of to_comoving, as for to_physical_m. -/
def to_comoving_m (x : cosmo_array) : Except PyError (cosmo_array × cosmo_array) :=
  (to_comoving x).map (fun y => (y, x))

/-- C7: convert_to_comoving is a no-op on a comoving array; on a physical
array with a non-null cosmo_factor it divides the stored values by
a_factor, sets comoving, and leaves cosmo_factor (and units and
compression) unchanged; and it is idempotent: whenever a call succeeds,
a second call returns its argument unchanged. -/
theorem convert_to_comoving_spec (x : cosmo_array) :
    (x.comoving = true → convert_to_comoving x = .ok x) ∧
    (∀ c, x.comoving = false → x.cosmo_factor = some c →
      convert_to_comoving x =
        .ok { x with values := x.values.map (· / c.a_factor), comoving := true }) ∧
    (∀ y, convert_to_comoving x = .ok y → convert_to_comoving y = .ok y) := by
  refine ⟨fun h => by simp [convert_to_comoving, h], ?_, ?_⟩
  · intro c h hc
    simp [convert_to_comoving, h, hc]
  · intro y hy
    unfold convert_to_comoving at hy ⊢
    cases hx : x.comoving with
    | true =>
        simp [hx] at hy
        subst hy
        simp [hx]
    | false =>
        cases hc : x.cosmo_factor with
        | none => simp [hx, hc] at hy
        | some c =>
            simp [hx, hc] at hy
            subst hy
            simp

/-- Witness for C7: a concrete physical array with exponent a^1 at scale
factor 1/2 is converted (values divided by 1/2) and a second conversion
is a no-op. -/
theorem convert_to_comoving_spec_witness :
    convert_to_comoving ⟨[1, 2], "Mpc", false, some ⟨1, 1/2⟩, none⟩ =
      .ok ⟨[2, 4], "Mpc", true, some ⟨1, 1/2⟩, none⟩ ∧
    convert_to_comoving ⟨[2, 4], "Mpc", true, some ⟨1, 1/2⟩, none⟩ =
      .ok ⟨[2, 4], "Mpc", true, some ⟨1, 1/2⟩, none⟩ := by
  have h1 := (convert_to_comoving_spec ⟨[1, 2], "Mpc", false, some ⟨1, 1/2⟩, none⟩).2.1
    ⟨1, 1/2⟩ rfl rfl
  have h2 := (convert_to_comoving_spec ⟨[2, 4], "Mpc", true, some ⟨1, 1/2⟩, none⟩).1 rfl
  refine ⟨?_, h2⟩
  rw [h1]
  norm_num [cosmo_factor.a_factor]

/-- C6: for a comoving array with a non-null cosmo_factor whose a_factor
is nonzero, to_physical followed by to_comoving restores the original
numeric values exactly (in the rational model; to floating-point
tolerance in the Python floats), with comoving true and the original
cosmo_factor; and the state-threaded forms show the receiver of each
call is left untouched. -/
theorem to_physical_to_comoving_roundtrip (x : cosmo_array) (c : cosmo_factor)
    (hcm : x.comoving = true) (hcf : x.cosmo_factor = some c)
    (ha : c.a_factor ≠ 0) :
    to_physical_m x =
      .ok ({ x with
              values := x.values.map (· * c.a_factor)
              comoving := false
              compression := none }, x) ∧
    to_comoving_m
        { x with
          values := x.values.map (· * c.a_factor)
          comoving := false
          compression := none } =
      .ok ({ x with values := x.values, comoving := true, compression := none },
           { x with
             values := x.values.map (· * c.a_factor)
             comoving := false
             compression := none }) := by
  constructor
  · simp [to_physical_m, to_physical, in_units, in_units_base,
      propagate_cosmo_array_attributes, convert_to_physical, Except.map, hcm, hcf]
  · have hmap : (x.values.map (· * c.a_factor)).map (· / c.a_factor) = x.values := by
      induction x.values with
      | nil => rfl
      | cons v l ih => simp [ih, mul_div_cancel_right₀ v ha]
    simp [to_comoving_m, to_comoving, in_units, in_units_base,
      propagate_cosmo_array_attributes, convert_to_comoving, Except.map, hcf, hmap]

/-- Witness for C6: the round trip on the comoving array [1,2,3] with
exponent a^1 at scale factor 1/2; to_physical produces [1/2,1,3/2] on a
copy (receiver returned untouched) and to_comoving restores [1,2,3]. -/
theorem to_physical_to_comoving_roundtrip_witness :
    to_physical_m (⟨[1, 2, 3], "Mpc", true, some ⟨1, 1/2⟩, none⟩ : cosmo_array) =
      .ok (⟨[1/2, 1, 3/2], "Mpc", false, some ⟨1, 1/2⟩, none⟩,
           ⟨[1, 2, 3], "Mpc", true, some ⟨1, 1/2⟩, none⟩) ∧
    to_comoving_m (⟨[1/2, 1, 3/2], "Mpc", false, some ⟨1, 1/2⟩, none⟩ : cosmo_array) =
      .ok (⟨[1, 2, 3], "Mpc", true, some ⟨1, 1/2⟩, none⟩,
           ⟨[1/2, 1, 3/2], "Mpc", false, some ⟨1, 1/2⟩, none⟩) := by
  have h := to_physical_to_comoving_roundtrip
    ⟨[1, 2, 3], "Mpc", true, some ⟨1, 1/2⟩, none⟩ ⟨1, 1/2⟩ rfl rfl
    (by norm_num [cosmo_factor.a_factor])
  obtain ⟨h1, h2⟩ := h
  norm_num [cosmo_factor.a_factor] at h1 h2
  exact ⟨h1, h2⟩

/-- The keys of cosmo_array._cosmo_factor_ufunc_registry (objects.py
lines 416-503), one constructor per registered numpy ufunc. mod and
true_divide are aliases of remainder and divide in numpy; they are kept
as separate constructors mapped to the same rule, exactly as the two
dictionary entries assign the same rule. -/
inductive UfuncId where
  | add | subtract | multiply | divide
  | logaddexp | logaddexp2 | true_divide | floor_divide
  | negative | power | remainder | mod | fmod
  | absolute | fabs | rint | sign | conj
  | exp | exp2 | log | log2 | log10 | expm1 | log1p
  | sqrt | square | reciprocal
  | sin | cos | tan | sinh | cosh | tanh
  | arcsin | arccos | arctan | arctan2
  | arcsinh | arccosh | arctanh | hypot
  | deg2rad | rad2deg
  | greater | greater_equal | less | less_equal | not_equal | equal
  | logical_and | logical_or | logical_xor | logical_not
  | maximum | minimum | fmax | fmin
  | isreal | iscomplex | isfinite | isinf | isnan | signbit
  | copysign | nextafter | modf | frexp
  | floor | ceil | trunc
  | spacing | positive | divmod_ | isnat | heaviside
  | ones_like | matmul | clip
deriving DecidableEq, Repr

/-- The rule functions that the registry values point at: one constructor
per distinct helper function of objects.py lines 117-187. -/
inductive CFRule where
  | preserve
  | multiplyCF
  | divideCF
  | sqrtCF
  | squareCF
  | reciprocalCF
  | powerCF
  | passthrough
  | returnWithout
  | arctan2CF
  | comparison
deriving DecidableEq, Repr

/-- _cosmo_factor_ufunc_registry (lines 416-503), entry by entry. -/
def registry : UfuncId → CFRule
  | .add | .subtract | .remainder | .mod | .fmod | .hypot
  | .maximum | .minimum | .fmax | .fmin
  | .nextafter | .heaviside | .ones_like => .preserve
  | .multiply | .matmul => .multiplyCF
  | .divide | .true_divide | .floor_divide => .divideCF
  | .sqrt => .sqrtCF
  | .square => .squareCF
  | .reciprocal => .reciprocalCF
  | .power => .powerCF
  | .negative | .absolute | .fabs | .conj | .copysign | .modf
  | .floor | .ceil | .trunc | .spacing | .positive | .divmod_ | .clip => .passthrough
  | .arctan2 => .arctan2CF
  | .greater | .greater_equal | .less | .less_equal | .not_equal | .equal
  | .logical_and | .logical_or | .logical_xor => .comparison
  | .logaddexp | .logaddexp2 | .rint | .sign
  | .exp | .exp2 | .log | .log2 | .log10 | .expm1 | .log1p
  | .sin | .cos | .tan | .sinh | .cosh | .tanh
  | .arcsin | .arccos | .arctan | .arcsinh | .arccosh | .arctanh
  | .deg2rad | .rad2deg | .logical_not
  | .isreal | .iscomplex | .isfinite | .isinf | .isnan | .signbit
  | .frexp | .isnat => .returnWithout

/-- _multiply_cosmo_factor (lines 122-131): returns cf1 * cf2. The cf
operands come out of getattr(inp, cosmo_factor-attribute, None), so
either may be Python None. cosmo_factor.__mul__ / __rmul__ immediately
read b.scale_factor, so a None operand next to a cosmo_factor raises
AttributeError, and None * None raises TypeError (no __mul__ at all). -/
def _multiply_cosmo_factor :
    Option cosmo_factor → Option cosmo_factor → Except PyError (Option cosmo_factor)
  | some c1, some c2 => (cosmo_factor.mul c1 c2).map some
  | some _, none => .error .attributeError
  | none, some _ => .error .attributeError
  | none, none => .error .typeError

/-- Number of positional arguments each rule helper accepts: the helpers
with a cf2=None default (lines 134, 170, 175, 185) accept one or two,
the strictly binary ones (lines 122, 146, 156, 180) exactly two, the
strictly unary ones (lines 117, 151, 165) exactly one. A call with any
other arity raises TypeError before the body runs. -/
def ruleArityOk : CFRule → Nat → Bool
  | .preserve, n | .passthrough, n | .returnWithout, n | .comparison, n =>
      n == 1 || n == 2
  | .multiplyCF, n | .divideCF, n | .arctan2CF, n | .powerCF, n => n == 2
  | .sqrtCF, n | .squareCF, n | .reciprocalCF, n => n == 1

/-- Application of a registry rule to the operand cosmo_factors, as in
line 828: registry[ufunc](*cf). Every helper except
_multiply_cosmo_factor raises NotImplementedError as the first statement
of its body (lines 117-187). -/
def applyRule (r : CFRule) (cfs : List (Option cosmo_factor)) :
    Except PyError (Option cosmo_factor) :=
  if ¬ ruleArityOk r cfs.length then .error .typeError
  else
    match r, cfs with
    | .multiplyCF, [c1, c2] => _multiply_cosmo_factor c1 c2
    | _, _ => .error .notImplementedError

/-- An operand of __array_ufunc__: either a cosmo_array or a plain
scalar / plain array with no cosmological attributes. -/
inductive Operand where
  | tagged (arr : cosmo_array)
  | plain (values : List ℚ)
deriving DecidableEq, Repr

/-- getattr(inp, comoving-attribute, True) as on line 802. -/
def getattr_comoving : Operand → Bool
  | .tagged arr => arr.comoving
  | .plain _ => true

/-- getattr(inp, cosmo_factor-attribute, None) as on line 803. -/
def getattr_cosmo_factor : Operand → Option cosmo_factor
  | .tagged arr => arr.cosmo_factor
  | .plain _ => none

/-- getattr(inp, compression-attribute, None) as on line 804. -/
def getattr_compression : Operand → Option String
  | .tagged arr => arr.compression
  | .plain _ => none

/-- The numeric buffer an operand contributes to the value-level ufunc
call. -/
def operand_values : Operand → List ℚ
  | .tagged arr => arr.values
  | .plain v => v

/-- Units of the value-level result: dimensional bookkeeping belongs to
the external unyt collaborator; the operations exercised in this file
combine operands of identical units, for which the result units are
those of the first tagged operand. -/
def resultUnits : List Operand → String
  | [] => ""
  | .tagged arr :: _ => arr.units
  | .plain _ :: rest => resultUnits rest

/-- Numeric action of super().__array_ufunc__ (line 824) for the
elementwise arithmetic ufuncs that the theorems evaluate numerically.
The remaining ufuncs never produce a successful tagged result in this
program (their cosmo_factor rule raises), so their numeric action is
irrelevant to every statement below and is left as the first operand
buffer. -/
def ufuncValues : UfuncId → List (List ℚ) → List ℚ
  | .add, [x, y] => List.zipWith (· + ·) x y
  | .subtract, [x, y] => List.zipWith (· - ·) x y
  | .multiply, [x, y] => List.zipWith (· * ·) x y
  | .divide, [x, y] => List.zipWith (· / ·) x y
  | .true_divide, [x, y] => List.zipWith (· / ·) x y
  | _, vs => vs.headD []

/-- Line 817-822: if all compressions are identical (a one-element set)
the result keeps it, otherwise compression is stripped. -/
def resolveCompression (comp : List (Option String)) : Option String :=
  match comp with
  | [] => none
  | c :: rest => if rest.all (fun x => x = c) then c else none

/-- Left-to-right traversal of a list with a fallible function, stopping
at the first raised exception: the evaluation order of a Python list
comprehension over fallible expressions. -/
def mapExcept {α β ε : Type} (f : α → Except ε β) : List α → Except ε (List β)
  | [] => .ok []
  | a :: as => do
      let b ← f a
      let bs ← mapExcept f as
      .ok (b :: bs)

/-- Line 814 applied to one input:
inp.to_comoving() if not inp.comoving else inp. A plain operand has no
comoving attribute, so the direct attribute access (not getattr here)
raises AttributeError. -/
def convertMixedInput : Operand → Except PyError Operand
  | .tagged arr =>
      if arr.comoving then .ok (.tagged arr)
      else (to_comoving arr).map .tagged
  | .plain _ => .error .attributeError

/-- State-threaded form of convertMixedInput: second component is the
post-call state of the operand. to_comoving only reads its receiver
(the in-place conversion happens on the in_units copy), so the operand
state passes through unchanged. -/
def convertMixedInput_m : Operand → Except PyError (Operand × Operand)
  | .tagged arr =>
      if arr.comoving then .ok (.tagged arr, .tagged arr)
      else (to_comoving_m arr).map (fun p => (.tagged p.1, .tagged p.2))
  | .plain _ => .error .attributeError

/-- cosmo_array.__array_ufunc__ (lines 801-831) for an elementwise call
(method __call__, no out kwarg; the source itself notes reductions and
out are unhandled). Steps, in source order: read comoving, cosmo_factor
and compression off every operand with getattr; resolve the output frame
(all-comoving keeps comoving, all-physical keeps physical, mixed
converts every physical operand with to_comoving and yields comoving);
resolve compression; compute the numeric result via the base class;
derive the output cosmo_factor by applying the registered rule to the
operand cosmo_factors read before conversion; assemble the result. -/
def array_ufunc (op : UfuncId) (inputs : List Operand) :
    Except PyError cosmo_array := do
  let cm := inputs.map getattr_comoving
  let cf := inputs.map getattr_cosmo_factor
  let comp := inputs.map getattr_compression
  let (inputs2, ret_cm) ←
    if cm.all (· = true) then pure (inputs, true)
    else if cm.all (· = false) then pure (inputs, false)
    else (mapExcept convertMixedInput inputs).map (fun l => (l, true))
  let ret_comp := resolveCompression comp
  let vals := ufuncValues op (inputs2.map operand_values)
  let ret_cf ← applyRule (registry op) cf
  pure { values := vals
         units := resultUnits inputs2
         comoving := ret_cm
         cosmo_factor := ret_cf
         compression := ret_comp }

/-- State-threaded form of __array_ufunc__: also returns the post-call
states of the operands. Only the mixed-frame branch touches the
operands at all, and there each conversion happens on a to_comoving
copy. -/
def array_ufunc_m (op : UfuncId) (inputs : List Operand) :
    Except PyError (cosmo_array × List Operand) := do
  let cm := inputs.map getattr_comoving
  let cf := inputs.map getattr_cosmo_factor
  let comp := inputs.map getattr_compression
  let (inputs2, after, ret_cm) ←
    if cm.all (· = true) then pure (inputs, inputs, true)
    else if cm.all (· = false) then pure (inputs, inputs, false)
    else do
      let l ← mapExcept convertMixedInput_m inputs
      pure (l.map Prod.fst, l.map Prod.snd, true)
  let ret_comp := resolveCompression comp
  let vals := ufuncValues op (inputs2.map operand_values)
  let ret_cf ← applyRule (registry op) cf
  pure ({ values := vals
          units := resultUnits inputs2
          comoving := ret_cm
          cosmo_factor := ret_cf
          compression := ret_comp }, after)

/-- The comoving operand of the mixed-frame addition example: values
[1,2,3], exponent a^1, scale factor 1/2. -/
def exA : cosmo_array := ⟨[1, 2, 3], "Mpc", true, some ⟨1, 1/2⟩, none⟩

/-- The physical operand of the mixed-frame addition example: values
[1/2,1,3/2], same exponent and scale factor. -/
def exB : cosmo_array := ⟨[1/2, 1, 3/2], "Mpc", false, some ⟨1, 1/2⟩, none⟩

/-- C1 counterexample: the mixed-frame addition of the claim does not
return a result at all, so in particular it does not return a comoving
array with values [2,4,6]. -/
theorem mixed_frame_add_returns_no_result :
    (array_ufunc .add [.tagged exA, .tagged exB]).isOk = false := by
  simp [array_ufunc, exA, exB, getattr_comoving, getattr_cosmo_factor,
    getattr_compression, convertMixedInput, to_comoving, in_units, in_units_base,
    propagate_cosmo_array_attributes, convert_to_comoving, cosmo_factor.a_factor,
    mapExcept, resolveCompression, operand_values, ufuncValues,
    applyRule, registry, ruleArityOk, resultUnits, Except.map, Bind.bind,
    Except.bind, Pure.pure, Except.pure, Except.isOk, Except.toBool]

/-- C1 amended: the mixed-frame machinery does convert the physical
operand to comoving (dividing its values by a_factor = 1/2, giving
[1,2,3]) and the elementwise sum of the converted buffers is [2,4,6],
but __array_ufunc__ then fails with NotImplementedError when it applies
the preserve rule (_preserve_cosmo_factor is unimplemented), so no
tagged result is returned. -/
theorem mixed_frame_add_converts_then_raises :
    to_comoving exB = .ok ⟨[1, 2, 3], "Mpc", true, some ⟨1, 1/2⟩, none⟩ ∧
    ufuncValues .add [exA.values, [1, 2, 3]] = [2, 4, 6] ∧
    array_ufunc .add [.tagged exA, .tagged exB] = .error .notImplementedError := by
  refine ⟨?_, by norm_num [ufuncValues, exA], ?_⟩
  · simp [exB, to_comoving, in_units, in_units_base,
      propagate_cosmo_array_attributes, convert_to_comoving, cosmo_factor.a_factor]
  · simp [array_ufunc, exA, exB, getattr_comoving, getattr_cosmo_factor,
      getattr_compression, convertMixedInput, to_comoving, in_units, in_units_base,
      propagate_cosmo_array_attributes, convert_to_comoving, cosmo_factor.a_factor,
      mapExcept, resolveCompression, operand_values, ufuncValues,
      applyRule, registry, ruleArityOk, resultUnits, Except.map, Bind.bind,
      Except.bind, Pure.pure, Except.pure]

/-- C3 counterexample: log is marked Strip in the dispatch table, yet
applied to a tagged array it returns no result (it raises
NotImplementedError), so the Strip operations do not return results with
the exponent stripped. -/
theorem strip_op_log_returns_no_result :
    registry .log = .returnWithout ∧
    (array_ufunc .log [.tagged exA]).isOk = false := by
  refine ⟨rfl, ?_⟩
  simp [array_ufunc, exA, getattr_comoving, getattr_cosmo_factor,
    getattr_compression, resolveCompression, operand_values, ufuncValues,
    applyRule, registry, ruleArityOk, resultUnits, Bind.bind,
    Except.bind, Pure.pure, Except.pure, Except.isOk, Except.toBool]

/-- C3 amended: every operation whose registry entry is
_return_without_cosmo_factor raises NotImplementedError when applied to
a tagged array (the helper raises before returning the stripped
cosmo_factor), for any comoving flag and any input exponent. -/
theorem strip_ops_raise_not_implemented (op : UfuncId)
    (hop : registry op = .returnWithout) (arr : cosmo_array) :
    array_ufunc op [.tagged arr] = .error .notImplementedError := by
  cases hx : arr.comoving <;>
    simp [array_ufunc, hop, hx, getattr_comoving, getattr_cosmo_factor,
      getattr_compression, resolveCompression, operand_values,
      applyRule, ruleArityOk, resultUnits, Bind.bind,
      Except.bind, Pure.pure, Except.pure]

/-- Witness for C3 amended: the Strip-marked log10 on a concrete
physical tagged array raises NotImplementedError. -/
theorem strip_ops_raise_not_implemented_witness :
    array_ufunc .log10 [.tagged exB] = .error .notImplementedError :=
  strip_ops_raise_not_implemented .log10 rfl exB

/-- C4 counterexample: multiplying a tagged array by a plain scalar does
not succeed, so plain operands are not usable as frame- and
exponent-neutral partners. -/
theorem tagged_times_plain_returns_no_result :
    (array_ufunc .multiply [.tagged exA, .plain [2]]).isOk = false := by
  simp [array_ufunc, exA, getattr_comoving, getattr_cosmo_factor,
    getattr_compression, resolveCompression, operand_values, ufuncValues,
    applyRule, registry, ruleArityOk, _multiply_cosmo_factor, resultUnits,
    Bind.bind, Except.bind, Pure.pure, Except.pure, Except.isOk, Except.toBool]

/-- C4 amended: a plain operand is indeed read as frame- and
exponent-neutral (getattr yields comoving True and cosmo_factor None),
but the operation then fails instead of deriving the result exponent
from the tagged operand alone: for multiply on a comoving tagged array
with a non-null exponent, _multiply_cosmo_factor evaluates
cosmo_factor * None, which raises AttributeError because None has no
scale_factor. -/
theorem tagged_times_plain_raises (arr : cosmo_array) (v : List ℚ)
    (c : cosmo_factor) (hcm : arr.comoving = true)
    (hcf : arr.cosmo_factor = some c) :
    getattr_comoving (.plain v) = true ∧
    getattr_cosmo_factor (.plain v) = none ∧
    array_ufunc .multiply [.tagged arr, .plain v] = .error .attributeError := by
  refine ⟨rfl, rfl, ?_⟩
  simp [array_ufunc, hcm, hcf, getattr_comoving, getattr_cosmo_factor,
    getattr_compression, resolveCompression, operand_values, ufuncValues,
    applyRule, registry, ruleArityOk, _multiply_cosmo_factor, resultUnits,
    Bind.bind, Except.bind, Pure.pure, Except.pure]

/-- Witness for C4 amended at a concrete tagged array and scalar. -/
theorem tagged_times_plain_raises_witness :
    getattr_comoving (.plain [2]) = true ∧
    getattr_cosmo_factor (.plain [2]) = none ∧
    array_ufunc .multiply [.tagged exA, .plain [2]] = .error .attributeError :=
  tagged_times_plain_raises exA [2] ⟨1, 1/2⟩ rfl rfl

/-- C8: the sqrt, square and reciprocal rules are unimplemented by
design; applying any of the three operations to any tagged array raises
NotImplementedError and never returns a (possibly mistagged) result. -/
theorem sqrt_square_reciprocal_raise (arr : cosmo_array) :
    array_ufunc .sqrt [.tagged arr] = .error .notImplementedError ∧
    array_ufunc .square [.tagged arr] = .error .notImplementedError ∧
    array_ufunc .reciprocal [.tagged arr] = .error .notImplementedError := by
  refine ⟨?_, ?_, ?_⟩ <;>
    cases hx : arr.comoving <;>
      simp [array_ufunc, hx, getattr_comoving, getattr_cosmo_factor,
        getattr_compression, resolveCompression, operand_values, ufuncValues,
        applyRule, registry, ruleArityOk, resultUnits,
        Bind.bind, Except.bind, Pure.pure, Except.pure]

/-- A successful mixed-frame conversion leaves the operand it was given
in its original state: the conversion output lives on a fresh copy. -/
theorem convertMixedInput_m_snd (inp : Operand) (p : Operand × Operand)
    (h : convertMixedInput_m inp = .ok p) : p.2 = inp := by
  cases inp with
  | tagged arr =>
      by_cases hx : arr.comoving
      · simp [convertMixedInput_m, hx] at h
        simp [← h]
      · simp [convertMixedInput_m, hx, to_comoving_m] at h
        cases hc : to_comoving arr with
        | error e => simp [hc, Except.map] at h
        | ok y =>
            simp [hc, Except.map] at h
            simp [← h]
  | plain v => simp [convertMixedInput_m] at h

/-- Mapping the mixed-frame conversion over the operand list returns,
next to the converted copies, exactly the original operands. -/
theorem mapExcept_convertMixedInput_m_snd (l : List Operand) :
    ∀ l' : List (Operand × Operand),
      mapExcept convertMixedInput_m l = .ok l' → l'.map Prod.snd = l := by
  induction l with
  | nil =>
      intro l' h
      simp [mapExcept] at h
      simp [← h]
  | cons a t ih =>
      intro l' h
      cases ha : convertMixedInput_m a with
      | error e => simp [mapExcept, ha, Bind.bind, Except.bind] at h
      | ok p =>
          cases ht : mapExcept convertMixedInput_m t with
          | error e => simp [mapExcept, ha, ht, Bind.bind, Except.bind] at h
          | ok ps =>
              simp [mapExcept, ha, ht, Bind.bind, Except.bind] at h
              simp [← h, convertMixedInput_m_snd a p ha, ih ps ht]

/-- C5: a binary (or any) elementwise call through __array_ufunc__ never
mutates the operands passed to it: whenever the call completes, the
post-call operand states equal the pre-call ones. In the mixed-frame
branch every physical operand is converted on an independent to_comoving
copy; only the explicit convert_to_comoving / convert_to_physical
mutators change a receiver. -/
theorem array_ufunc_never_mutates_operands (op : UfuncId)
    (inputs : List Operand) (r : cosmo_array) (after : List Operand)
    (h : array_ufunc_m op inputs = .ok (r, after)) : after = inputs := by
  unfold array_ufunc_m at h
  by_cases h1 : (inputs.map getattr_comoving).all (· = true)
  · simp only [h1, if_true, Bind.bind, Except.bind, Pure.pure, Except.pure] at h
    cases hr : applyRule (registry op) (inputs.map getattr_cosmo_factor) with
    | error e => simp [hr] at h
    | ok cf =>
        simp [hr] at h
        exact h.2.symm
  · by_cases h2 : (inputs.map getattr_comoving).all (· = false)
    · simp only [h1, h2, if_true, if_false, Bind.bind, Except.bind,
        Pure.pure, Except.pure] at h
      cases hr : applyRule (registry op) (inputs.map getattr_cosmo_factor) with
      | error e => simp [hr] at h
      | ok cf =>
          simp [hr] at h
          exact h.2.symm
    · simp only [h1, h2, if_false, Bind.bind, Except.bind,
        Pure.pure, Except.pure] at h
      cases hm : mapExcept convertMixedInput_m inputs with
      | error e => simp [hm] at h
      | ok l =>
          simp only [hm] at h
          cases hr : applyRule (registry op) (inputs.map getattr_cosmo_factor) with
          | error e => simp [hr] at h
          | ok cf =>
              simp [hr] at h
              rw [← h.2]
              exact mapExcept_convertMixedInput_m_snd inputs l hm

/-- Witness for C5: a successful mixed-frame multiplication (a comoving
and a physical tagged operand); the call returns the product with a
combined exponent a^2 and the operand list comes back exactly as passed. -/
theorem array_ufunc_never_mutates_operands_witness :
    ([Operand.tagged exA, Operand.tagged exB] : List Operand) =
      [Operand.tagged exA, Operand.tagged exB] :=
  array_ufunc_never_mutates_operands .multiply
    [Operand.tagged exA, Operand.tagged exB]
    ⟨[1, 4, 9], "Mpc", true, some ⟨2, 1/2⟩, none⟩
    [Operand.tagged exA, Operand.tagged exB]
    (by
      simp [array_ufunc_m, exA, exB, getattr_comoving, getattr_cosmo_factor,
        getattr_compression, convertMixedInput_m, to_comoving_m, to_comoving,
        in_units, in_units_base, propagate_cosmo_array_attributes,
        convert_to_comoving, cosmo_factor.a_factor, cosmo_factor.mul,
        mapExcept, resolveCompression, operand_values,
        ufuncValues, applyRule, registry, ruleArityOk, _multiply_cosmo_factor,
        resultUnits, Except.map, Bind.bind, Except.bind, Pure.pure, Except.pure]
      norm_num)

/-- Witness for C8: the three unimplemented-by-design operations on a
concrete tagged array. -/
theorem sqrt_square_reciprocal_raise_witness :
    array_ufunc .sqrt [.tagged exA] = .error .notImplementedError ∧
    array_ufunc .reciprocal [.tagged exA] = .error .notImplementedError :=
  ⟨(sqrt_square_reciprocal_raise exA).1, (sqrt_square_reciprocal_raise exA).2.2⟩

/-- The part of the pickled state owned by the base classes (unyt_array
and ndarray): the numeric buffer and the unit metadata. Modelled from
the external collaborators' documented pickling contract: their state
round-trips buffer and units. -/
structure BaseState where
  values : List ℚ
  units : String
deriving DecidableEq, Repr

/-- The obj_state portion produced by the base __reduce__. -/
def base_reduce (x : cosmo_array) : BaseState :=
  ⟨x.values, x.units⟩

/-- The base __setstate__: restores buffer and units onto the object. -/
def base_setstate (x : cosmo_array) (s : BaseState) : cosmo_array :=
  { x with values := s.values, units := s.units }

/-- The object-state tuple built by cosmo_array.__reduce__ (lines
603-614): a record (cosmo_factor, comoving) is placed ahead of the base
state, so the first component of this pair is the cosmology record and
the second is everything the base classes serialize. -/
structure CosmoState where
  head : Option cosmo_factor × Bool
  rest : BaseState
deriving DecidableEq, Repr

/-- cosmo_array.__reduce__ (lines 603-614): prepend
((self.cosmo_factor, self.comoving),) to the base object state. -/
def reduce_state (x : cosmo_array) : CosmoState :=
  ⟨(x.cosmo_factor, x.comoving), base_reduce x⟩

/-- cosmo_array.__setstate__ (lines 616-624): delegate state[1:] to the
base setstate, then unpack cosmo_factor and comoving from state[0]. -/
def setstate (x : cosmo_array) (s : CosmoState) : cosmo_array :=
  let x2 := base_setstate x s.rest
  { x2 with cosmo_factor := s.head.1, comoving := s.head.2 }

/-- C9: the pickle round trip restores comoving and cosmo_factor exactly,
alongside the numeric buffer and the unit metadata, onto any freshly
built object y; and the serialized form places the (cosmo_factor,
comoving) record ahead of the base state, which restore consumes while
delegating the rest to the base classes. -/
theorem reduce_setstate_roundtrip (x y : cosmo_array) :
    (reduce_state x).head = (x.cosmo_factor, x.comoving) ∧
    (reduce_state x).rest = base_reduce x ∧
    (setstate y (reduce_state x)).comoving = x.comoving ∧
    (setstate y (reduce_state x)).cosmo_factor = x.cosmo_factor ∧
    (setstate y (reduce_state x)).values = x.values ∧
    (setstate y (reduce_state x)).units = x.units := by
  refine ⟨rfl, rfl, rfl, rfl, rfl, rfl⟩

/-- Witness for C9: restoring the pickled state of a physical compressed
array onto a default-constructed array reproduces its tags and data. -/
theorem reduce_setstate_roundtrip_witness :
    (setstate ⟨[], "", true, none, none⟩ (reduce_state exB)).comoving = false ∧
    (setstate ⟨[], "", true, none, none⟩ (reduce_state exB)).cosmo_factor =
      some ⟨1, 1/2⟩ ∧
    (setstate ⟨[], "", true, none, none⟩ (reduce_state exB)).values =
      [1/2, 1, 3/2] := by
  have h := reduce_setstate_roundtrip exB ⟨[], "", true, none, none⟩
  exact ⟨h.2.2.1, h.2.2.2.1, h.2.2.2.2.1⟩

/-- The operations cosmo_array wraps with
_propagate_cosmo_array_attributes (lines 628-642). All of them except
in_units_op are numpy-level accessors whose base-class result is
finalized from the source array itself (ndarray views, astype copies,
and the like), so __array_finalize__ has copied all three attributes
before the wrapper runs; in_units_op builds its result through the
external constructor call instead (see in_units_base). -/
inductive AccessorKind where
  | getitem | astype | in_units_op | byteswap | compress | diagonal
  | flatten | newbyteorder | ravel | repeat_op | reshape | swapaxes
  | take | transpose | view
deriving DecidableEq, Repr

/-- One wrapped accessor applied to a source array: the base operation
produces vals (the reindexed or reshaped buffer, abstracted), the result
is finalized or freshly constructed according to the accessor kind, and
the wrapper then copies cosmo_factor and comoving from the source. -/
def applyAccessor (k : AccessorKind) (x : cosmo_array) (vals : List ℚ) :
    cosmo_array :=
  match k with
  | .in_units_op => propagate_cosmo_array_attributes x (in_units_base x)
  | _ => propagate_cosmo_array_attributes x (array_finalize x vals)

/-- C10 counterexample: a unit conversion (an accessor kind explicitly
listed by the claim) on an array carrying a compression label returns a
cosmo_array whose compression differs from the source, because the
wrapper copies only comoving and cosmo_factor and the external
constructor left compression at its None default. -/
theorem accessor_in_units_drops_compression :
    (applyAccessor .in_units_op
      ⟨[1, 2, 3], "Mpc", true, some ⟨1, 1/2⟩, some "gzip"⟩ [1, 2, 3]).compression ≠
    (⟨[1, 2, 3], "Mpc", true, some ⟨1, 1/2⟩, some "gzip"⟩ : cosmo_array).compression := by
  simp [applyAccessor, propagate_cosmo_array_attributes, in_units_base]

/-- C10 amended: every wrapped accessor propagates comoving and
cosmo_factor from the source unconditionally (no dispatch-table lookup);
every accessor except the unit conversion also carries the source's
compression, while in_units resets compression to None. -/
theorem accessors_propagate_attributes (k : AccessorKind) (x : cosmo_array)
    (vals : List ℚ) :
    (applyAccessor k x vals).comoving = x.comoving ∧
    (applyAccessor k x vals).cosmo_factor = x.cosmo_factor ∧
    (k ≠ .in_units_op → (applyAccessor k x vals).compression = x.compression) ∧
    (applyAccessor .in_units_op x vals).compression = none := by
  refine ⟨?_, ?_, ?_, rfl⟩ <;>
    cases k <;>
      simp [applyAccessor, propagate_cosmo_array_attributes, in_units_base,
        array_finalize]

/-- Witness for C10 amended: a concrete slicing-style accessor preserves
all three attributes. -/
theorem accessors_propagate_attributes_witness :
    (applyAccessor .getitem
      ⟨[1, 2, 3], "Mpc", false, some ⟨1, 1/2⟩, some "gzip"⟩ [2, 3]).comoving = false ∧
    (applyAccessor .getitem
      ⟨[1, 2, 3], "Mpc", false, some ⟨1, 1/2⟩, some "gzip"⟩ [2, 3]).compression =
      some "gzip" := by
  have h := accessors_propagate_attributes .getitem
    ⟨[1, 2, 3], "Mpc", false, some ⟨1, 1/2⟩, some "gzip"⟩ [2, 3]
  exact ⟨h.1, h.2.2.1 (by simp)⟩

end Swiftsimio
